import Mathlib

/-!
Verification of the Microblog CRUD service (src/app.js).

The service is an Express application over a Mongoose model
`Post { title : String, content : String }`.  Four routes are registered,
in this order: `POST /posts`, `GET /posts`, `PUT /posts/:postId`,
`DELETE /posts/:postId`, followed by a Swagger UI mount.  Each route
handler performs one storage call inside a try/catch, sends exactly one
HTTP response, and (on some paths) writes one winston log entry.

The embedding below models the Mongoose collection as a list of posts
plus a fresh-id counter, the raw `:postId` path parameter as a value on
which the ObjectId cast either succeeds or fails, storage connectivity
as a boolean, and each handler as a pure function returning the new
store together with the ordered list of observable events (storage
call, response send, log write) it performed, in program order.
-/

namespace Microblog

/-- A stored blog post: the Mongoose model `Post` of app.js line 15 has
two optional `String` fields plus the implicit `_id` assigned by the
store (modelled as a `Nat`). -/
structure Post where
  id : Nat
  title : Option String
  content : Option String
deriving DecidableEq, Repr

/-- A well-shaped request body: any subset of the two model fields, as
accepted by `new Post(req.body)` and by the update document of
`findByIdAndUpdate`. -/
structure Fields where
  title : Option String
  content : Option String
deriving DecidableEq, Repr

/-- A JSON request body as the storage layer sees it: either a
well-shaped subset of the model fields, or a value the store rejects
(cast failure), which makes the storage call throw. -/
inductive ReqBody where
  | fields (f : Fields)
  | malformed
deriving DecidableEq, Repr

/-- The state of the Mongoose collection: the stored posts in natural
retrieval order, and the next fresh identifier. -/
structure Store where
  posts : List Post
  nextId : Nat
deriving DecidableEq, Repr

/-- Errors thrown by the storage layer: a cast/validation failure
(malformed id or fields) or a connectivity failure. -/
inductive StorageError where
  | castError
  | unavailable
deriving DecidableEq, Repr

/-- An HTTP response body as produced by the handlers of app.js. -/
inductive Body where
  | post (p : Post)
  | posts (ps : List Post)
  | message (m : String)
  | errorDetail (e : StorageError)
  | empty
deriving DecidableEq, Repr

/-- Log levels of the winston logger (app.js line 21). -/
inductive Level where
  | info
  | error
deriving DecidableEq, Repr

/-- An observable action of a route handler, in program order:
a call into the storage layer, a `res.status(..).send(..)`, or a
`logger.info`/`logger.error` write. -/
inductive Event where
  | call
  | send (status : Nat) (body : Body)
  | log (lvl : Level) (msg : String)
deriving DecidableEq, Repr

/-- The raw `:postId` path parameter as received by the handlers:
either a well-formed identifier denoting the id `n`, or a string the
store's ObjectId cast rejects. -/
inductive RawId where
  | valid (n : Nat)
  | invalid
deriving DecidableEq, Repr

/-- The ObjectId cast Mongoose applies to the raw `:postId` path
parameter: succeeds exactly on well-formed identifiers; otherwise the
storage call throws a cast error (mapped by the catch blocks of
app.js). -/
def castObjectId : RawId → Option Nat
  | .valid n => some n
  | .invalid => none

/-- The calls `new Post(req.body); await post.save()` (app.js lines 58-59):
insert a new post carrying the supplied fields, assign a fresh id,
return the stored post. -/
def save (s : Store) (f : Fields) : Store × Post :=
  let p : Post := { id := s.nextId, title := f.title, content := f.content }
  ({ posts := s.posts ++ [p], nextId := s.nextId + 1 }, p)

/-- The call `Post.find()` (app.js line 86): all stored posts in natural order. -/
def find (s : Store) : List Post :=
  s.posts

/-- Mongoose update-document application: an update without operators is
treated as `$set`, so each field supplied overwrites the stored value
and each field omitted is left untouched; the id is never changed. -/
def applySet (p : Post) (f : Fields) : Post :=
  { id := p.id
  , title := match f.title with
      | some t => some t
      | none => p.title
  , content := match f.content with
      | some c => some c
      | none => p.content }

/-- The call `Post.findByIdAndUpdate(id, body, \x7bnew: true\x7d)` (app.js line
141): if no post carries `id`, return `none` and leave the store
unchanged; otherwise apply the `$set` update document to the matching
post and return the updated document (option `new: true`). -/
def findByIdAndUpdate (s : Store) (id : Nat) (f : Fields) :
    Store × Option Post :=
  match s.posts.find? (fun q => q.id == id) with
  | none => (s, none)
  | some p =>
    let p' := applySet p f
    ({ posts := s.posts.map (fun q => if q.id == id then p' else q)
     , nextId := s.nextId }, some p')

/-- The call `Post.findByIdAndDelete(id)` (app.js line 176): if no post carries
`id`, return `none`; otherwise remove the matching post and return the
deleted document. -/
def findByIdAndDelete (s : Store) (id : Nat) : Store × Option Post :=
  match s.posts.find? (fun q => q.id == id) with
  | none => (s, none)
  | some p =>
    ({ posts := s.posts.filter (fun q => q.id != id)
     , nextId := s.nextId }, some p)

/-- The awaited `post.save()` call as the handler sees it: throws on
connectivity failure or on a body the store rejects, otherwise inserts. -/
def saveM (avail : Bool) (s : Store) (b : ReqBody) :
    Except StorageError (Store × Post) :=
  if avail then
    match b with
    | .malformed => .error .castError
    | .fields f => .ok (save s f)
  else .error .unavailable

/-- The awaited `Post.find()` call: throws on connectivity failure. -/
def findM (avail : Bool) (s : Store) : Except StorageError (List Post) :=
  if avail then .ok (find s) else .error .unavailable

/-- The awaited `Post.findByIdAndUpdate` call: throws on connectivity
failure, on a raw id the ObjectId cast rejects, or on a malformed body. -/
def findByIdAndUpdateM (avail : Bool) (s : Store) (raw : RawId)
    (b : ReqBody) : Except StorageError (Store × Option Post) :=
  if avail then
    match castObjectId raw with
    | none => .error .castError
    | some id =>
      match b with
      | .malformed => .error .castError
      | .fields f => .ok (findByIdAndUpdate s id f)
  else .error .unavailable

/-- The awaited `Post.findByIdAndDelete` call: throws on connectivity
failure or on a raw id the ObjectId cast rejects. -/
def findByIdAndDeleteM (avail : Bool) (s : Store) (raw : RawId) :
    Except StorageError (Store × Option Post) :=
  if avail then
    match castObjectId raw with
    | none => .error .castError
    | some id => .ok (findByIdAndDelete s id)
  else .error .unavailable

/-- Handler of `POST /posts` (app.js lines 56-66): try
\x7b save; send 201 with the post; log info \x7d catch
\x7b send 400 with the error; log error \x7d. -/
def postPostsHandler (avail : Bool) (s : Store) (b : ReqBody) :
    Store × List Event :=
  match saveM avail s b with
  | .ok (s', post) =>
    (s', [.call, .send 201 (.post post), .log .info "Создан новый пост:"])
  | .error e =>
    (s, [.call, .send 400 (.errorDetail e), .log .error "Ошибка создания поста:"])

/-- Handler of `GET /posts` (app.js lines 84-93): try
\x7b find; send 200 with the list; log info \x7d catch
\x7b send 500 with the error; log error \x7d. -/
def getPostsHandler (avail : Bool) (s : Store) : Store × List Event :=
  match findM avail s with
  | .ok posts =>
    (s, [.call, .send 200 (.posts posts), .log .info "Получены все посты:"])
  | .error e =>
    (s, [.call, .send 500 (.errorDetail e), .log .error "Ошибка получения постов:"])

/-- Handler of `PUT /posts/:postId` (app.js lines 139-153): try
\x7b findByIdAndUpdate; if null, return 404 with a message (no log);
else send 200 with the updated post; log info \x7d catch
\x7b send 400 with the error; log error \x7d. -/
def putPostHandler (avail : Bool) (s : Store) (raw : RawId) (b : ReqBody) :
    Store × List Event :=
  match findByIdAndUpdateM avail s raw b with
  | .ok (s', none) =>
    (s', [.call, .send 404 (.message "Пост не найден")])
  | .ok (s', some post) =>
    (s', [.call, .send 200 (.post post), .log .info "Пост обновлен:"])
  | .error e =>
    (s, [.call, .send 400 (.errorDetail e), .log .error "Ошибка обновления поста:"])

/-- Handler of `DELETE /posts/:postId` (app.js lines 174-186): try
\x7b findByIdAndDelete; if null, return 404 with a message (no log);
else send 204 with empty body; log info \x7d catch
\x7b send 500 with the error; log error \x7d. -/
def deletePostHandler (avail : Bool) (s : Store) (raw : RawId) :
    Store × List Event :=
  match findByIdAndDeleteM avail s raw with
  | .ok (s', none) =>
    (s', [.call, .send 404 (.message "Пост не найден")])
  | .ok (s', some _post) =>
    (s', [.call, .send 204 .empty, .log .info "Пост удален:"])
  | .error e =>
    (s, [.call, .send 500 (.errorDetail e), .log .error "Ошибка удаления поста:"])

/-- The first `res.status(..).send(..)` of an event list: the HTTP
response the client receives. -/
def sentOf : List Event → Option (Nat × Body)
  | [] => none
  | .send st b :: _ => some (st, b)
  | .call :: rest => sentOf rest
  | .log _ _ :: rest => sentOf rest

/-- The status code of the response, if one was sent. -/
def statusOf (evs : List Event) : Option Nat :=
  (sentOf evs).map Prod.fst

/-- Number of log entries written during a handler run. -/
def logCount : List Event → Nat
  | [] => 0
  | .log _ _ :: rest => logCount rest + 1
  | .call :: rest => logCount rest
  | .send _ _ :: rest => logCount rest

/-- Number of error-level log entries written during a handler run. -/
def errorLogCount : List Event → Nat
  | [] => 0
  | .log .error _ :: rest => errorLogCount rest + 1
  | .log .info _ :: rest => errorLogCount rest
  | .call :: rest => errorLogCount rest
  | .send _ _ :: rest => errorLogCount rest

/-- Number of storage calls issued during a handler run. -/
def callCount : List Event → Nat
  | [] => 0
  | .call :: rest => callCount rest + 1
  | .send _ _ :: rest => callCount rest
  | .log _ _ :: rest => callCount rest

/-- Position of the response send within a handler run. -/
def sendIdx : List Event → Option Nat
  | [] => none
  | .send _ _ :: _ => some 0
  | .call :: rest => (sendIdx rest).map (· + 1)
  | .log _ _ :: rest => (sendIdx rest).map (· + 1)

/-- Position of the first log write within a handler run. -/
def logIdx : List Event → Option Nat
  | [] => none
  | .log _ _ :: _ => some 0
  | .call :: rest => (logIdx rest).map (· + 1)
  | .send _ _ :: rest => (logIdx rest).map (· + 1)

/-- HTTP methods used by the application's routes. -/
inductive Method where
  | post
  | get
  | put
  | delete
deriving DecidableEq, Repr

/-- The routes registered on the Express app, identified by their
registration site in app.js. -/
inductive RouteId where
  | createPost
  | listPosts
  | updatePost
  | deletePost
  | apiDocs
deriving DecidableEq, Repr

/-- The literal first argument of `app.use` at app.js line 203: the
string `/api-docs` surrounded by backtick characters, exactly as it
appears between the single quotes in the source. -/
def apiDocsMountPath : String :=
  "`/api-docs`"

/-- Boolean prefix test on character lists (paths are compared by
their character sequences). -/
def leadsWith : List Char → List Char → Bool
  | [], _ => true
  | _ :: _, [] => false
  | a :: as, b :: bs => a == b && leadsWith as bs

/-- Express matching of a route pattern `pre/:param`: the request path
extends `pre/` by one non-empty segment containing no further slash. -/
def paramMatch (pre : String) (path : String) : Bool :=
  leadsWith (pre.data ++ ['/']) path.data &&
    (path.data.drop (pre.data.length + 1)).length > 0 &&
    !((path.data.drop (pre.data.length + 1)).contains '/')

/-- Express matching of an `app.use(mountPath, ...)` middleware mount:
the request path equals the mount path or extends it by a slash. -/
def mountMatch (mount : String) (path : String) : Bool :=
  path.data == mount.data || leadsWith (mount.data ++ ['/']) path.data

/-- Whether a registered route matches a request, per Express semantics:
the four CRUD routes match on method and path pattern (app.js lines 56,
84, 139, 174); the Swagger UI mount matches any method on the literal
mount path of line 203. -/
def matchesRoute : RouteId → Method → String → Bool
  | .createPost, m, p => m == .post && p.data == "/posts".data
  | .listPosts, m, p => m == .get && p.data == "/posts".data
  | .updatePost, m, p => m == .put && paramMatch "/posts" p
  | .deletePost, m, p => m == .delete && paramMatch "/posts" p
  | .apiDocs, _, p => mountMatch apiDocsMountPath p

/-- All routes of the app in registration order (app.js lines 56, 84,
139, 174, 203). -/
def appRoutes : List RouteId :=
  [.createPost, .listPosts, .updatePost, .deletePost, .apiDocs]

/-- The app's routes without the Swagger UI mount, for comparing
dispatch with and without the documentation route. -/
def appRoutesNoDocs : List RouteId :=
  [.createPost, .listPosts, .updatePost, .deletePost]

/-- Express dispatch: the first registered route matching the request. -/
def dispatch (rs : List RouteId) (m : Method) (path : String) :
    Option RouteId :=
  rs.find? (fun r => matchesRoute r m path)

/-- Claim C1 counterexample: on the store holding the single post with
id 0, title "T" and content "C", updating id 0 with a body that
supplies only `content` returns HTTP 200 with title still "T": the
omitted `title` field IS preserved (Mongoose treats an operator-free
update document as `$set`), contradicting the claim that a field the
caller omits is not preserved. -/
theorem update_replace_counterexample :
    sentOf (putPostHandler true ⟨[⟨0, some "T", some "C"⟩], 1⟩ (.valid 0)
        (.fields ⟨none, some "new"⟩)).2 =
      some (200, .post ⟨0, some "T", some "new"⟩) ∧
    some "T" ≠ (none : Option String) := by
  decide

/-- Claim C1 (amended): for every stored Post identified by `id` and
every well-formed fields value, the update route returns HTTP 200 with
the updated Post: its id is unchanged, each field the caller supplies
replaces the stored value, and each field the caller omits is
preserved (merge semantics, not full replacement). -/
theorem update_merges_supplied_fields (s : Store) (raw : RawId)
    (id : Nat) (f : Fields) (p : Post)
    (hcast : castObjectId raw = some id)
    (hfind : s.posts.find? (fun q => q.id == id) = some p) :
    ∃ q, sentOf (putPostHandler true s raw (.fields f)).2 =
        some (200, .post q) ∧
      q.id = p.id ∧
      (∀ t, f.title = some t → q.title = some t) ∧
      (f.title = none → q.title = p.title) ∧
      (∀ c, f.content = some c → q.content = some c) ∧
      (f.content = none → q.content = p.content) := by
  refine ⟨applySet p f, ?_, rfl, ?_, ?_, ?_, ?_⟩
  · simp [putPostHandler, findByIdAndUpdateM, hcast, findByIdAndUpdate,
      hfind, sentOf]
  · intro t ht
    simp [applySet, ht]
  · intro ht
    simp [applySet, ht]
  · intro c hc
    simp [applySet, hc]
  · intro hc
    simp [applySet, hc]

/-- Claim C1 witness: the amended theorem applied to the store holding
the single post with id 0, updated at the valid raw id 0 with only a title. -/
theorem update_merges_supplied_fields_witness :
    castObjectId (.valid 0) = some 0 ∧
    (Store.posts ⟨[⟨0, some "T", some "C"⟩], 1⟩).find?
        (fun q => q.id == 0) = some ⟨0, some "T", some "C"⟩ ∧
    ∃ q, sentOf (putPostHandler true ⟨[⟨0, some "T", some "C"⟩], 1⟩
          (.valid 0) (.fields ⟨some "X", none⟩)).2 = some (200, .post q) ∧
      q.id = (⟨0, some "T", some "C"⟩ : Post).id ∧
      (∀ t, (⟨some "X", none⟩ : Fields).title = some t →
        q.title = some t) ∧
      ((⟨some "X", none⟩ : Fields).title = none →
        q.title = (⟨0, some "T", some "C"⟩ : Post).title) ∧
      (∀ c, (⟨some "X", none⟩ : Fields).content = some c →
        q.content = some c) ∧
      ((⟨some "X", none⟩ : Fields).content = none →
        q.content = (⟨0, some "T", some "C"⟩ : Post).content) :=
  ⟨by decide, by decide,
    update_merges_supplied_fields ⟨[⟨0, some "T", some "C"⟩], 1⟩ (.valid 0) 0
      ⟨some "X", none⟩ ⟨0, some "T", some "C"⟩ (by decide) (by decide)⟩

/-- Claim C2 counterexample: updating an id absent from the store takes
the NotFound path of the update handler, which sends HTTP 404 and
returns without any logger call: the NotFound outcome emits zero
Logger entries, not exactly one. -/
theorem notfound_no_log_counterexample :
    statusOf (putPostHandler true ⟨[], 0⟩ (.valid 0) (.fields ⟨none, none⟩)).2 =
      some 404 ∧
    logCount (putPostHandler true ⟨[], 0⟩ (.valid 0) (.fields ⟨none, none⟩)).2 =
      0 ∧
    (0 : Nat) ≠ 1 := by
  decide

/-- Claim C2 (amended): every run of each of the four route handlers
emits exactly one Logger entry describing the outcome, except for the
NotFound (HTTP 404) outcome of the update and delete routes, which
emits none. -/
theorem one_log_except_notfound (avail : Bool) (s : Store) (b : ReqBody)
    (raw : RawId) :
    (statusOf (postPostsHandler avail s b).2 ≠ some 404 ∧
      logCount (postPostsHandler avail s b).2 = 1) ∧
    (statusOf (getPostsHandler avail s).2 ≠ some 404 ∧
      logCount (getPostsHandler avail s).2 = 1) ∧
    ((statusOf (putPostHandler avail s raw b).2 = some 404 ∧
        logCount (putPostHandler avail s raw b).2 = 0) ∨
      (statusOf (putPostHandler avail s raw b).2 ≠ some 404 ∧
        logCount (putPostHandler avail s raw b).2 = 1)) ∧
    ((statusOf (deletePostHandler avail s raw).2 = some 404 ∧
        logCount (deletePostHandler avail s raw).2 = 0) ∨
      (statusOf (deletePostHandler avail s raw).2 ≠ some 404 ∧
        logCount (deletePostHandler avail s raw).2 = 1)) := by
  refine ⟨?_, ?_, ?_, ?_⟩
  · cases hsa : saveM avail s b with
    | ok v =>
      obtain ⟨s', post⟩ := v
      simp [postPostsHandler, hsa, statusOf, sentOf, logCount]
    | error e =>
      simp [postPostsHandler, hsa, statusOf, sentOf, logCount]
  · cases hfi : findM avail s with
    | ok posts =>
      simp [getPostsHandler, hfi, statusOf, sentOf, logCount]
    | error e =>
      simp [getPostsHandler, hfi, statusOf, sentOf, logCount]
  · cases hup : findByIdAndUpdateM avail s raw b with
    | ok v =>
      obtain ⟨s', po⟩ := v
      cases po with
      | none =>
        simp [putPostHandler, hup, statusOf, sentOf, logCount]
      | some post =>
        simp [putPostHandler, hup, statusOf, sentOf, logCount]
    | error e =>
      simp [putPostHandler, hup, statusOf, sentOf, logCount]
  · cases hde : findByIdAndDeleteM avail s raw with
    | ok v =>
      obtain ⟨s', po⟩ := v
      cases po with
      | none =>
        simp [deletePostHandler, hde, statusOf, sentOf, logCount]
      | some post =>
        simp [deletePostHandler, hde, statusOf, sentOf, logCount]
    | error e =>
      simp [deletePostHandler, hde, statusOf, sentOf, logCount]

/-- Claim C2 witness: the amended logging rule instantiated on the
empty store with a create body and the valid raw id 0. -/
theorem one_log_except_notfound_witness :
    (statusOf (postPostsHandler true ⟨[], 0⟩
        (.fields ⟨some "T", some "C"⟩)).2 ≠ some 404 ∧
      logCount (postPostsHandler true ⟨[], 0⟩
        (.fields ⟨some "T", some "C"⟩)).2 = 1) ∧
    (statusOf (getPostsHandler true ⟨[], 0⟩).2 ≠ some 404 ∧
      logCount (getPostsHandler true ⟨[], 0⟩).2 = 1) ∧
    ((statusOf (putPostHandler true ⟨[], 0⟩ (.valid 0)
          (.fields ⟨some "T", some "C"⟩)).2 = some 404 ∧
        logCount (putPostHandler true ⟨[], 0⟩ (.valid 0)
          (.fields ⟨some "T", some "C"⟩)).2 = 0) ∨
      (statusOf (putPostHandler true ⟨[], 0⟩ (.valid 0)
          (.fields ⟨some "T", some "C"⟩)).2 ≠ some 404 ∧
        logCount (putPostHandler true ⟨[], 0⟩ (.valid 0)
          (.fields ⟨some "T", some "C"⟩)).2 = 1)) ∧
    ((statusOf (deletePostHandler true ⟨[], 0⟩ (.valid 0)).2 = some 404 ∧
        logCount (deletePostHandler true ⟨[], 0⟩ (.valid 0)).2 = 0) ∨
      (statusOf (deletePostHandler true ⟨[], 0⟩ (.valid 0)).2 ≠ some 404 ∧
        logCount (deletePostHandler true ⟨[], 0⟩ (.valid 0)).2 = 1)) :=
  one_log_except_notfound true ⟨[], 0⟩ (.fields ⟨some "T", some "C"⟩)
    (.valid 0)

/-- Claim C3: creating a Post with title "T" and content "C" returns
HTTP 201 with a freshly assigned id (distinct from every stored id)
plus the same title and content; the created Post appears in a
subsequent listing; a body the store rejects yields HTTP 400. -/
theorem create_post_contract (s : Store) (t c : String)
    (hfresh : ∀ p ∈ s.posts, p.id < s.nextId) :
    sentOf (postPostsHandler true s (.fields ⟨some t, some c⟩)).2 =
      some (201, .post ⟨s.nextId, some t, some c⟩) ∧
    (∀ p ∈ s.posts, p.id ≠ s.nextId) ∧
    (∃ l, sentOf (getPostsHandler true
        (postPostsHandler true s (.fields ⟨some t, some c⟩)).1).2 =
        some (200, .posts l) ∧
      (⟨s.nextId, some t, some c⟩ : Post) ∈ l) ∧
    statusOf (postPostsHandler true s .malformed).2 = some 400 := by
  refine ⟨?_, ?_, ?_, ?_⟩
  · simp [postPostsHandler, saveM, save, sentOf]
  · intro p hp
    exact Nat.ne_of_lt (hfresh p hp)
  · refine ⟨s.posts ++ [⟨s.nextId, some t, some c⟩], ?_, ?_⟩
    · simp [postPostsHandler, saveM, save, getPostsHandler, findM, find,
        sentOf]
    · simp
  · simp [postPostsHandler, saveM, statusOf, sentOf]

/-- Claim C3 witness: the contract applied to the empty store with
title "T" and content "C". -/
theorem create_post_contract_witness :
    sentOf (postPostsHandler true ⟨[], 0⟩ (.fields ⟨some "T", some "C"⟩)).2 =
      some (201, .post ⟨0, some "T", some "C"⟩) ∧
    (∀ p ∈ (Store.posts ⟨[], 0⟩), p.id ≠ 0) ∧
    (∃ l, sentOf (getPostsHandler true
        (postPostsHandler true ⟨[], 0⟩ (.fields ⟨some "T", some "C"⟩)).1).2 =
        some (200, .posts l) ∧
      (⟨0, some "T", some "C"⟩ : Post) ∈ l) ∧
    statusOf (postPostsHandler true ⟨[], 0⟩ .malformed).2 = some 400 :=
  create_post_contract ⟨[], 0⟩ "T" "C" (by simp)

/-- Claim C4: updating an id whose cast succeeds but which matches no
stored Post returns HTTP 404 with the descriptive message of app.js
line 145, leaves the store unchanged and writes no error-level log
entry; updating with a raw id the store cannot cast returns HTTP 400. -/
theorem update_notfound_contract (s : Store) (raw : RawId) (id : Nat)
    (f : Fields) :
    (castObjectId raw = some id → (∀ p ∈ s.posts, p.id ≠ id) →
      sentOf (putPostHandler true s raw (.fields f)).2 =
        some (404, .message "Пост не найден") ∧
      (putPostHandler true s raw (.fields f)).1 = s ∧
      errorLogCount (putPostHandler true s raw (.fields f)).2 = 0) ∧
    (castObjectId raw = none →
      statusOf (putPostHandler true s raw (.fields f)).2 = some 400) := by
  constructor
  · intro hcast habs
    have hfind : s.posts.find? (fun q => q.id == id) = none := by
      rw [List.find?_eq_none]
      intro x hx
      simpa using habs x hx
    refine ⟨?_, ?_, ?_⟩ <;>
      simp [putPostHandler, findByIdAndUpdateM, hcast, findByIdAndUpdate,
        hfind, sentOf, errorLogCount]
  · intro hcast
    simp [putPostHandler, findByIdAndUpdateM, hcast, statusOf, sentOf]

/-- Claim C4 witness: the contract applied to the empty store at the
valid-but-unassigned raw id 5 and at an uncastable raw id. -/
theorem update_notfound_contract_witness :
    castObjectId (.valid 5) = some 5 ∧
    (∀ p ∈ (Store.posts ⟨[], 0⟩), p.id ≠ 5) ∧
    sentOf (putPostHandler true ⟨[], 0⟩ (.valid 5) (.fields ⟨none, none⟩)).2 =
      some (404, .message "Пост не найден") ∧
    castObjectId .invalid = none ∧
    statusOf (putPostHandler true ⟨[], 0⟩ .invalid (.fields ⟨none, none⟩)).2 =
      some 400 :=
  ⟨by decide, by simp,
    ((update_notfound_contract ⟨[], 0⟩ (.valid 5) 5 ⟨none, none⟩).1
      (by decide) (by simp)).1,
    by decide,
    (update_notfound_contract ⟨[], 0⟩ .invalid 5 ⟨none, none⟩).2 rfl⟩

/-- Claim C5: deleting an id whose cast succeeds and which matches a
stored Post returns HTTP 204 with an empty body and no post with that
id remains in a subsequent listing; deleting an id matching no Post
returns HTTP 404; a connectivity failure yields HTTP 500. -/
theorem delete_contract (s : Store) (raw : RawId) (id : Nat) :
    (castObjectId raw = some id →
      ((∃ p ∈ s.posts, p.id = id) →
        sentOf (deletePostHandler true s raw).2 = some (204, .empty) ∧
        ∀ q ∈ find (deletePostHandler true s raw).1, q.id ≠ id) ∧
      ((∀ p ∈ s.posts, p.id ≠ id) →
        sentOf (deletePostHandler true s raw).2 =
          some (404, .message "Пост не найден"))) ∧
    statusOf (deletePostHandler false s raw).2 = some 500 := by
  constructor
  · intro hcast
    constructor
    · intro hex
      have hsome : (s.posts.find? (fun q => q.id == id)).isSome := by
        rw [List.find?_isSome]
        obtain ⟨p, hp, hpid⟩ := hex
        exact ⟨p, hp, by simp [hpid]⟩
      obtain ⟨p, hfind⟩ := Option.isSome_iff_exists.mp hsome
      constructor
      · simp [deletePostHandler, findByIdAndDeleteM, hcast,
          findByIdAndDelete, hfind, sentOf]
      · intro q hq
        simp [deletePostHandler, findByIdAndDeleteM, hcast,
          findByIdAndDelete, hfind, find, List.mem_filter] at hq
        exact hq.2
    · intro habs
      have hfind : s.posts.find? (fun q => q.id == id) = none := by
        rw [List.find?_eq_none]
        intro x hx
        simpa using habs x hx
      simp [deletePostHandler, findByIdAndDeleteM, hcast, findByIdAndDelete,
        hfind, sentOf]
  · simp [deletePostHandler, findByIdAndDeleteM, statusOf, sentOf]

/-- Claim C5 witness: the contract applied to the store holding the
single post with id 3, deleted at the valid raw id 3. -/
theorem delete_contract_witness :
    castObjectId (.valid 3) = some 3 ∧
    (∃ p ∈ (Store.posts ⟨[⟨3, some "T", some "C"⟩], 4⟩), p.id = 3) ∧
    sentOf (deletePostHandler true ⟨[⟨3, some "T", some "C"⟩], 4⟩
        (.valid 3)).2 = some (204, .empty) ∧
    (∀ q ∈ find (deletePostHandler true ⟨[⟨3, some "T", some "C"⟩], 4⟩
        (.valid 3)).1, q.id ≠ 3) :=
  ⟨by decide, ⟨⟨3, some "T", some "C"⟩, by simp, rfl⟩,
    (((delete_contract ⟨[⟨3, some "T", some "C"⟩], 4⟩ (.valid 3) 3).1
        (by decide)).1 ⟨⟨3, some "T", some "C"⟩, by simp, rfl⟩).1,
    (((delete_contract ⟨[⟨3, some "T", some "C"⟩], 4⟩ (.valid 3) 3).1
        (by decide)).1 ⟨⟨3, some "T", some "C"⟩, by simp, rfl⟩).2⟩

/-- Claim C6: listing returns HTTP 200 with the array of all stored
Posts; when none exist the array is empty; a connectivity failure
yields HTTP 500. -/
theorem list_contract (s : Store) :
    sentOf (getPostsHandler true s).2 = some (200, .posts (find s)) ∧
    (s.posts = [] →
      sentOf (getPostsHandler true s).2 = some (200, .posts [])) ∧
    statusOf (getPostsHandler false s).2 = some 500 := by
  refine ⟨?_, ?_, ?_⟩
  · simp [getPostsHandler, findM, sentOf]
  · intro h
    simp [getPostsHandler, findM, find, h, sentOf]
  · simp [getPostsHandler, findM, statusOf, sentOf]

/-- Claim C6 witness: the contract applied to the empty store. -/
theorem list_contract_witness :
    sentOf (getPostsHandler true ⟨[], 0⟩).2 =
      some (200, .posts (find ⟨[], 0⟩)) ∧
    Store.posts ⟨[], 0⟩ = [] ∧
    sentOf (getPostsHandler true ⟨[], 0⟩).2 = some (200, .posts []) ∧
    statusOf (getPostsHandler false ⟨[], 0⟩).2 = some 500 :=
  ⟨(list_contract ⟨[], 0⟩).1, rfl, (list_contract ⟨[], 0⟩).2.1 rfl,
    (list_contract ⟨[], 0⟩).2.2⟩

/-- Claim C7: starting from an empty store, create succeeds with 201,
the listing then holds exactly one post whose id is the created one,
updating that id succeeds with 200, deleting it succeeds with 204, and
the store is back in its pre-create state: empty. -/
theorem crud_round_trip (n : Nat) (t c : Option String) (f : Fields)
    (raw : RawId) (hcast : castObjectId raw = some n) :
    statusOf (postPostsHandler true ⟨[], n⟩ (.fields ⟨t, c⟩)).2 =
      some 201 ∧
    (find (postPostsHandler true ⟨[], n⟩ (.fields ⟨t, c⟩)).1).map Post.id =
      [n] ∧
    statusOf (putPostHandler true
      (postPostsHandler true ⟨[], n⟩ (.fields ⟨t, c⟩)).1 raw
      (.fields f)).2 = some 200 ∧
    statusOf (deletePostHandler true
      (putPostHandler true
        (postPostsHandler true ⟨[], n⟩ (.fields ⟨t, c⟩)).1 raw
        (.fields f)).1 raw).2 = some 204 ∧
    find (deletePostHandler true
      (putPostHandler true
        (postPostsHandler true ⟨[], n⟩ (.fields ⟨t, c⟩)).1 raw
        (.fields f)).1 raw).1 = [] := by
  simp [postPostsHandler, saveM, save, putPostHandler, findByIdAndUpdateM,
    hcast, findByIdAndUpdate, applySet, deletePostHandler,
    findByIdAndDeleteM, findByIdAndDelete, find, sentOf, statusOf]

/-- Claim C7 witness: the round trip run from the empty store with
fresh id 0, title "T", content "C", updated with a new content. -/
theorem crud_round_trip_witness :
    castObjectId (.valid 0) = some (0 : Nat) ∧
    statusOf (postPostsHandler true ⟨[], 0⟩
        (.fields ⟨some "T", some "C"⟩)).2 = some 201 ∧
    (find (postPostsHandler true ⟨[], 0⟩
        (.fields ⟨some "T", some "C"⟩)).1).map Post.id = [0] ∧
    statusOf (putPostHandler true
      (postPostsHandler true ⟨[], 0⟩ (.fields ⟨some "T", some "C"⟩)).1
      (.valid 0) (.fields ⟨none, some "new"⟩)).2 = some 200 ∧
    statusOf (deletePostHandler true
      (putPostHandler true
        (postPostsHandler true ⟨[], 0⟩ (.fields ⟨some "T", some "C"⟩)).1
        (.valid 0) (.fields ⟨none, some "new"⟩)).1 (.valid 0)).2 =
      some 204 ∧
    find (deletePostHandler true
      (putPostHandler true
        (postPostsHandler true ⟨[], 0⟩ (.fields ⟨some "T", some "C"⟩)).1
        (.valid 0) (.fields ⟨none, some "new"⟩)).1 (.valid 0)).1 = [] :=
  ⟨rfl, crud_round_trip 0 (some "T") (some "C") ⟨none, some "new"⟩
    (.valid 0) rfl⟩

/-- Claim C8 counterexample: on a successful create, the handler's
event list places the response send at position 1 and the log write at
position 2: the Logger entry is recorded after the HTTP response is
sent, not before, so the log write does not precede the sending of the
response. -/
theorem send_precedes_log_counterexample :
    sendIdx (postPostsHandler true ⟨[], 0⟩
        (.fields ⟨some "T", some "C"⟩)).2 = some 1 ∧
    logIdx (postPostsHandler true ⟨[], 0⟩
        (.fields ⟨some "T", some "C"⟩)).2 = some 2 ∧
    ¬ (2 : Nat) < 1 := by
  decide

/-- Claim C8 (amended): in every run of each of the four route
handlers, the HTTP response is sent at position 1, directly after the
storage call; when a Logger entry is written it is written after the
send, at position 2, as the final action before the handler returns;
the NotFound outcome of the update and delete routes writes none. -/
theorem send_then_log_order (avail : Bool) (s : Store) (b : ReqBody)
    (raw : RawId) :
    (sendIdx (postPostsHandler avail s b).2 = some 1 ∧
      logIdx (postPostsHandler avail s b).2 = some 2 ∧
      (postPostsHandler avail s b).2.length = 3) ∧
    (sendIdx (getPostsHandler avail s).2 = some 1 ∧
      logIdx (getPostsHandler avail s).2 = some 2 ∧
      (getPostsHandler avail s).2.length = 3) ∧
    (sendIdx (putPostHandler avail s raw b).2 = some 1 ∧
      ((logIdx (putPostHandler avail s raw b).2 = none ∧
          (putPostHandler avail s raw b).2.length = 2) ∨
        (logIdx (putPostHandler avail s raw b).2 = some 2 ∧
          (putPostHandler avail s raw b).2.length = 3))) ∧
    (sendIdx (deletePostHandler avail s raw).2 = some 1 ∧
      ((logIdx (deletePostHandler avail s raw).2 = none ∧
          (deletePostHandler avail s raw).2.length = 2) ∨
        (logIdx (deletePostHandler avail s raw).2 = some 2 ∧
          (deletePostHandler avail s raw).2.length = 3))) := by
  refine ⟨?_, ?_, ?_, ?_⟩
  · cases hsa : saveM avail s b with
    | ok v =>
      obtain ⟨s', post⟩ := v
      simp [postPostsHandler, hsa, sendIdx, logIdx]
    | error e =>
      simp [postPostsHandler, hsa, sendIdx, logIdx]
  · cases hfi : findM avail s with
    | ok posts =>
      simp [getPostsHandler, hfi, sendIdx, logIdx]
    | error e =>
      simp [getPostsHandler, hfi, sendIdx, logIdx]
  · cases hup : findByIdAndUpdateM avail s raw b with
    | ok v =>
      obtain ⟨s', po⟩ := v
      cases po with
      | none => simp [putPostHandler, hup, sendIdx, logIdx]
      | some post => simp [putPostHandler, hup, sendIdx, logIdx]
    | error e =>
      simp [putPostHandler, hup, sendIdx, logIdx]
  · cases hde : findByIdAndDeleteM avail s raw with
    | ok v =>
      obtain ⟨s', po⟩ := v
      cases po with
      | none => simp [deletePostHandler, hde, sendIdx, logIdx]
      | some post => simp [deletePostHandler, hde, sendIdx, logIdx]
    | error e =>
      simp [deletePostHandler, hde, sendIdx, logIdx]

/-- Claim C8 witness: the amended ordering rule instantiated on the
empty store with a create body and the valid raw id 0. -/
theorem send_then_log_order_witness :
    (sendIdx (postPostsHandler true ⟨[], 0⟩
        (.fields ⟨some "T", some "C"⟩)).2 = some 1 ∧
      logIdx (postPostsHandler true ⟨[], 0⟩
        (.fields ⟨some "T", some "C"⟩)).2 = some 2 ∧
      (postPostsHandler true ⟨[], 0⟩
        (.fields ⟨some "T", some "C"⟩)).2.length = 3) ∧
    (sendIdx (getPostsHandler true ⟨[], 0⟩).2 = some 1 ∧
      logIdx (getPostsHandler true ⟨[], 0⟩).2 = some 2 ∧
      (getPostsHandler true ⟨[], 0⟩).2.length = 3) ∧
    (sendIdx (putPostHandler true ⟨[], 0⟩ (.valid 0)
        (.fields ⟨some "T", some "C"⟩)).2 = some 1 ∧
      ((logIdx (putPostHandler true ⟨[], 0⟩ (.valid 0)
            (.fields ⟨some "T", some "C"⟩)).2 = none ∧
          (putPostHandler true ⟨[], 0⟩ (.valid 0)
            (.fields ⟨some "T", some "C"⟩)).2.length = 2) ∨
        (logIdx (putPostHandler true ⟨[], 0⟩ (.valid 0)
            (.fields ⟨some "T", some "C"⟩)).2 = some 2 ∧
          (putPostHandler true ⟨[], 0⟩ (.valid 0)
            (.fields ⟨some "T", some "C"⟩)).2.length = 3))) ∧
    (sendIdx (deletePostHandler true ⟨[], 0⟩ (.valid 0)).2 = some 1 ∧
      ((logIdx (deletePostHandler true ⟨[], 0⟩ (.valid 0)).2 = none ∧
          (deletePostHandler true ⟨[], 0⟩ (.valid 0)).2.length = 2) ∨
        (logIdx (deletePostHandler true ⟨[], 0⟩ (.valid 0)).2 = some 2 ∧
          (deletePostHandler true ⟨[], 0⟩ (.valid 0)).2.length = 3))) :=
  send_then_log_order true ⟨[], 0⟩ (.fields ⟨some "T", some "C"⟩) (.valid 0)

/-- Claim C9: every run of each of the four route handlers issues
exactly one storage call (no retry) and always sends a response; when
the storage call throws, the error is mapped to the route's error
status (400 for create and update, 500 for list and delete) with the
raw error detail in the body, so no error propagates past the handler. -/
theorem errors_recovered_no_retry (avail : Bool) (s : Store) (b : ReqBody)
    (raw : RawId) :
    (callCount (postPostsHandler avail s b).2 = 1 ∧
      (sentOf (postPostsHandler avail s b).2).isSome = true ∧
      ∀ e, saveM avail s b = .error e →
        sentOf (postPostsHandler avail s b).2 =
          some (400, .errorDetail e)) ∧
    (callCount (getPostsHandler avail s).2 = 1 ∧
      (sentOf (getPostsHandler avail s).2).isSome = true ∧
      ∀ e, findM avail s = .error e →
        sentOf (getPostsHandler avail s).2 =
          some (500, .errorDetail e)) ∧
    (callCount (putPostHandler avail s raw b).2 = 1 ∧
      (sentOf (putPostHandler avail s raw b).2).isSome = true ∧
      ∀ e, findByIdAndUpdateM avail s raw b = .error e →
        sentOf (putPostHandler avail s raw b).2 =
          some (400, .errorDetail e)) ∧
    (callCount (deletePostHandler avail s raw).2 = 1 ∧
      (sentOf (deletePostHandler avail s raw).2).isSome = true ∧
      ∀ e, findByIdAndDeleteM avail s raw = .error e →
        sentOf (deletePostHandler avail s raw).2 =
          some (500, .errorDetail e)) := by
  refine ⟨?_, ?_, ?_, ?_⟩
  · cases hsa : saveM avail s b with
    | ok v =>
      obtain ⟨s', post⟩ := v
      refine ⟨by simp [postPostsHandler, hsa, callCount],
        by simp [postPostsHandler, hsa, sentOf], ?_⟩
      intro e he
      exact Except.noConfusion he
    | error e0 =>
      refine ⟨by simp [postPostsHandler, hsa, callCount],
        by simp [postPostsHandler, hsa, sentOf], ?_⟩
      intro e he
      injection he with h
      subst h
      simp [postPostsHandler, hsa, sentOf]
  · cases hfi : findM avail s with
    | ok posts =>
      refine ⟨by simp [getPostsHandler, hfi, callCount],
        by simp [getPostsHandler, hfi, sentOf], ?_⟩
      intro e he
      exact Except.noConfusion he
    | error e0 =>
      refine ⟨by simp [getPostsHandler, hfi, callCount],
        by simp [getPostsHandler, hfi, sentOf], ?_⟩
      intro e he
      injection he with h
      subst h
      simp [getPostsHandler, hfi, sentOf]
  · cases hup : findByIdAndUpdateM avail s raw b with
    | ok v =>
      obtain ⟨s', po⟩ := v
      cases po with
      | none =>
        refine ⟨by simp [putPostHandler, hup, callCount],
          by simp [putPostHandler, hup, sentOf], ?_⟩
        intro e he
        exact Except.noConfusion he
      | some post =>
        refine ⟨by simp [putPostHandler, hup, callCount],
          by simp [putPostHandler, hup, sentOf], ?_⟩
        intro e he
        exact Except.noConfusion he
    | error e0 =>
      refine ⟨by simp [putPostHandler, hup, callCount],
        by simp [putPostHandler, hup, sentOf], ?_⟩
      intro e he
      injection he with h
      subst h
      simp [putPostHandler, hup, sentOf]
  · cases hde : findByIdAndDeleteM avail s raw with
    | ok v =>
      obtain ⟨s', po⟩ := v
      cases po with
      | none =>
        refine ⟨by simp [deletePostHandler, hde, callCount],
          by simp [deletePostHandler, hde, sentOf], ?_⟩
        intro e he
        exact Except.noConfusion he
      | some post =>
        refine ⟨by simp [deletePostHandler, hde, callCount],
          by simp [deletePostHandler, hde, sentOf], ?_⟩
        intro e he
        exact Except.noConfusion he
    | error e0 =>
      refine ⟨by simp [deletePostHandler, hde, callCount],
        by simp [deletePostHandler, hde, sentOf], ?_⟩
      intro e he
      injection he with h
      subst h
      simp [deletePostHandler, hde, sentOf]

/-- Claim C9 witness: on connectivity failure the create handler still
issues one call and maps the thrown error to HTTP 400 with the raw
detail. -/
theorem errors_recovered_no_retry_witness :
    saveM false ⟨[], 0⟩ (.fields ⟨none, none⟩) = .error .unavailable ∧
    sentOf (postPostsHandler false ⟨[], 0⟩ (.fields ⟨none, none⟩)).2 =
      some (400, .errorDetail .unavailable) :=
  ⟨rfl,
    (errors_recovered_no_retry false ⟨[], 0⟩ (.fields ⟨none, none⟩)
      .invalid).1.2.2 .unavailable rfl⟩

/-- Claim C10: the Swagger UI is mounted at the literal string written
between the single quotes at app.js line 203, whose first and last
characters are backticks; hence a request to /api-docs matches no
route at all, in particular not the documentation mount; and adding
the mount (registered last) changes the dispatch of no request the
four CRUD routes accept. -/
theorem api_docs_mount_literal :
    apiDocsMountPath.data = "`".data ++ "/api-docs".data ++ "`".data ∧
    apiDocsMountPath.data ≠ "/api-docs".data ∧
    mountMatch apiDocsMountPath "/api-docs" = false ∧
    dispatch appRoutes .get "/api-docs" = none ∧
    (∀ m p r, dispatch appRoutesNoDocs m p = some r →
      dispatch appRoutes m p = some r) := by
  refine ⟨by decide, by decide, by decide, by decide, ?_⟩
  intro m p r h
  have happ : dispatch appRoutes m p =
      ((appRoutesNoDocs.find? (fun rt => matchesRoute rt m p)).or
        ([RouteId.apiDocs].find? (fun rt => matchesRoute rt m p))) := by
    have : appRoutes = appRoutesNoDocs ++ [RouteId.apiDocs] := rfl
    rw [dispatch, this, List.find?_append]
  rw [happ, show appRoutesNoDocs.find? (fun rt => matchesRoute rt m p) =
    some r from h]
  rfl

/-- Claim C10 witness: the update route dispatches identically with and
without the documentation mount. -/
theorem api_docs_mount_literal_witness :
    dispatch appRoutesNoDocs .put "/posts/7" = some .updatePost ∧
    dispatch appRoutes .put "/posts/7" = some .updatePost :=
  ⟨by decide,
    api_docs_mount_literal.2.2.2.2 .put "/posts/7" .updatePost (by decide)⟩

end Microblog
